import Mathlib

/-!
Shallow embedding of the optimized elementwise multiply kernel
(`opt_mul_out` / `opt_mul_scalar_out` in `kernels/optimized/cpu/op_mul.cpp`).

Tensors are modelled as a list of dimension extents (outer-to-inner), an
element-type tag and a flat element buffer.  Element values of every type are
carried as `Int`; each scalar type has a value domain (`inDomain`) and a
normalization (`toDomain`) modelling the C++ conversion into that type
(two's-complement wrap for the integer kinds, nonzero-test for `Bool`,
identity for the floating kinds, whose rounding is not modelled).
-/

inductive ScalarType where
  | Byte
  | Char
  | Short
  | Int
  | Long
  | Half
  | Float
  | Double
  | Bool
deriving DecidableEq, Repr

/-- Floating-point kinds (`isFloatingType` in the runtime, `Half` included). -/
def isFloatTy : ScalarType → Bool
  | .Half => true
  | .Float => true
  | .Double => true
  | _ => false

/-- Integral kinds, `Bool` excluded (`isIntegralType(t, false)`). -/
def isIntTy : ScalarType → Bool
  | .Byte => true
  | .Char => true
  | .Short => true
  | .Int => true
  | .Long => true
  | _ => false

/-- Value domain of a scalar type: `Byte` is `uint8`, `Char` is `int8`,
`Short`/`Int`/`Long` are `int16`/`int32`/`int64`, `Bool` holds `0` or `1`,
and the floating kinds are modelled as unbounded (exact arithmetic). -/
def inDomain (t : ScalarType) (v : Int) : Bool :=
  match t with
  | .Byte => 0 ≤ v && v < 256
  | .Char => -128 ≤ v && v < 128
  | .Short => -32768 ≤ v && v < 32768
  | .Int => -2147483648 ≤ v && v < 2147483648
  | .Long => -9223372036854775808 ≤ v && v < 9223372036854775808
  | .Bool => v == 0 || v == 1
  | .Half => true
  | .Float => true
  | .Double => true

/-- Conversion of an integer value into the domain of a scalar type: the
semantics of a C++ conversion into that type (wraparound for the integer
kinds, `x != 0` for `bool`, identity for the floating kinds). -/
def toDomain (t : ScalarType) (v : Int) : Int :=
  match t with
  | .Byte => v % 256
  | .Char => (v + 128) % 256 - 128
  | .Short => (v + 32768) % 65536 - 32768
  | .Int => (v + 2147483648) % 4294967296 - 2147483648
  | .Long => (v + 9223372036854775808) % 18446744073709551616 - 9223372036854775808
  | .Bool => if v = 0 then 0 else 1
  | .Half => v
  | .Float => v
  | .Double => v

/-- The value of `static_cast<t>(v)` in the model. -/
def castVal (t : ScalarType) (v : Int) : Int := toDomain t v

/-- Product of two values carried out in scalar type `t` (the result is
reduced into the domain of `t`, as a C++ multiplication stored in `t` is). -/
def mulVal (t : ScalarType) (x y : Int) : Int := toDomain t (x * y)

/-- Modelled from the spec (the promotion lattice of §4.2; `promoteTypes` of
`ScalarTypeUtil.h` is not part of the sources): `Bool` yields the other type,
a floating kind dominates the integer kinds, two floating kinds promote to
the wider, two integer kinds promote to the smallest kind able to represent
both (`Byte` with `Char` gives `Short`, otherwise the wider kind). -/
def promoteBase (a b : ScalarType) : ScalarType :=
  if a = b then a
  else if a = .Bool then b
  else if b = .Bool then a
  else if isFloatTy a && isFloatTy b then
    (if floatRank b ≤ floatRank a then a else b)
  else if isFloatTy a then a
  else if isFloatTy b then b
  else if (a = .Byte && b = .Char) || (a = .Char && b = .Byte) then .Short
  else if intRank b ≤ intRank a then a else b
where
  floatRank : ScalarType → Nat
    | .Half => 0
    | .Float => 1
    | .Double => 2
    | _ => 0
  intRank : ScalarType → Nat
    | .Short => 1
    | .Int => 2
    | .Long => 3
    | _ => 0

/-- Modelled from the spec (§4.2): the common type of two operand types with
the optional half-to-float widening applied to the result. -/
def promoteTypes (a b : ScalarType) (halfToFloat : Bool) : ScalarType :=
  let r := promoteBase a b
  if halfToFloat ∧ r = .Half then .Float else r

/-- Modelled from the spec (§4.2: "lossless-or-explicit cast rule"; `canCast`
of the runtime is not part of the sources): a floating kind cannot be cast to
an integral kind, and only `Bool` can be cast to `Bool`. -/
def canCast (src dst : ScalarType) : Bool :=
  !(isFloatTy src && isIntTy dst) && !(src != .Bool && dst == .Bool)

structure Tensor where
  sizes : List Nat
  dtype : ScalarType
  data : List Int
deriving DecidableEq, Repr

/-- Element count of a tensor: the product of its dimension extents. -/
def Tensor.numel (t : Tensor) : Nat := t.sizes.prod

/-- Well-formed tensor: the buffer holds exactly `numel` elements and every
element lies in the domain of the element type. -/
def Tensor.wf (t : Tensor) : Prop :=
  t.data.length = t.numel ∧ ∀ v ∈ t.data, inDomain t.dtype v = true

instance (t : Tensor) : Decidable t.wf := by
  unfold Tensor.wf; infer_instance

/-- The suffix of a shape after discarding the contiguous leading prefix of
extent-1 dimensions (`arrayref_begin_ignoring_leading_1s`). -/
def stripLeading1s (l : List Nat) : List Nat := l.dropWhile (fun x => x == 1)

/-- Translation of `sizes_match_ignoring_leading_1s`: the two suffixes after
stripping leading 1s have equal length and equal values pairwise. -/
def sizes_match_ignoring_leading_1s (lhs rhs : List Nat) : Bool :=
  let l := stripLeading1s lhs
  let r := stripLeading1s rhs
  l.length == r.length && l == r

inductive ElementwiseOptimizedPath where
  | kNone
  | kTreatAs1d
  | kBroadcast2dBy1d
  | kBroadcast2dBy1dReverseArguments
deriving DecidableEq, Repr

/-- Translation of `select_broadcast_2d_by_1d_optimized_path`. -/
def select_broadcast_2d_by_1d_optimized_path (lhs rhs : Tensor) :
    ElementwiseOptimizedPath :=
  let ls := stripLeading1s lhs.sizes
  let rs := stripLeading1s rhs.sizes
  if ls.length = 2 ∧ rs.length = 1 ∧ ls.getD 1 0 = rs.getD 0 0 then
    .kBroadcast2dBy1d
  else if ls.length = 1 ∧ rs.length = 2 ∧ rs.getD 1 0 = ls.getD 0 0 then
    .kBroadcast2dBy1dReverseArguments
  else
    .kNone

/-- Translation of `select_optimized_path`. -/
def select_optimized_path (a b out : Tensor) : ElementwiseOptimizedPath :=
  if a.dtype ≠ b.dtype ∨ a.dtype ≠ out.dtype ∨ a.dtype = .Half then
    .kNone
  else if a.sizes = b.sizes ∨
      (a.numel = b.numel ∧
        (a.numel = out.numel ∨
          sizes_match_ignoring_leading_1s a.sizes b.sizes = true)) then
    .kTreatAs1d
  else
    select_broadcast_2d_by_1d_optimized_path a b

example : select_optimized_path
    ⟨[2, 2], .Int, [1, 2, 3, 4]⟩ ⟨[2], .Int, [10, 20]⟩ ⟨[4], .Int, [0, 0, 0, 0]⟩
    = .kBroadcast2dBy1d := by decide

example : select_optimized_path
    ⟨[1, 1, 6], .Float, [1, 2, 3, 4, 5, 6]⟩ ⟨[6], .Float, [1, 1, 1, 1, 1, 1]⟩
    ⟨[6], .Float, [0, 0, 0, 0, 0, 0]⟩ = .kTreatAs1d := by decide

inductive Err where
  | InvalidArgument
  | FatalAssert
deriving DecidableEq, Repr

/-- Modelled from the spec (§4.4: pairwise broadcasting of one dimension;
the broadcast utilities are not part of the sources): the common extent of
two dimensions, an extent of 1 broadcasting against the other. -/
def broadcastDim (x y : Nat) : Option Nat :=
  if x = y then some x
  else if x = 1 then some y
  else if y = 1 then some x
  else none

/-- Modelled from the spec (§4.4): the broadcast result shape of two shapes
given reversed (inner-to-outer), dimensions aligned from the trailing end and
dimensions absent on the shorter shape treated as extent 1. -/
def broadcastShapesRev : List Nat → List Nat → Option (List Nat)
  | [], ys => some ys
  | xs, [] => some xs
  | x :: xs, y :: ys =>
    match broadcastDim x y, broadcastShapesRev xs ys with
    | some d, some rest => some (d :: rest)
    | _, _ => none

/-- Modelled from the spec (§4.4): the broadcast result shape of two shapes,
or `none` when they are incompatible. -/
def broadcastShapes (s t : List Nat) : Option (List Nat) :=
  (broadcastShapesRev s.reverse t.reverse).map List.reverse

/-- Multi-index (inner-to-outer coordinates) of flat index `k` in a shape
given reversed. -/
def unflattenRev : List Nat → Nat → List Nat
  | [], _ => []
  | d :: ds, k => (k % d) :: unflattenRev ds (k / d)

/-- Flat index of inner-to-outer coordinates in a shape given reversed. -/
def flattenRevIdx : List Nat → List Nat → Nat
  | [], _ => 0
  | _, [] => 0
  | d :: ds, c :: cs => c + d * flattenRevIdx ds cs

/-- Coordinates clamped to 0 on the dimensions of extent 1 of the source
shape (both lists inner-to-outer); excess trailing coordinates are dropped. -/
def broadcastCoord (ds cs : List Nat) : List Nat :=
  List.zipWith (fun d c => if d = 1 then 0 else c) ds cs

/-- Modelled from the spec (§4.4, `apply_binary_elementwise_fn` index map):
the flat index into a source operand of shape `srcShape` feeding flat output
index `k` of the broadcast target shape `tgtShape`. -/
def broadcastSrcIdx (srcShape tgtShape : List Nat) (k : Nat) : Nat :=
  flattenRevIdx srcShape.reverse
    (broadcastCoord srcShape.reverse (unflattenRev tgtShape.reverse k))

/-- Translation of the `kNone` fallback branch of `opt_mul_out`: promotion
with half-to-float widening, the can-cast check, resize to the broadcast
target shape, and the elementwise loop of `MulInner` (cast both operands to
the common type, multiply in the common type, cast out). -/
def generalPath (a b out : Tensor) : Except Err Tensor :=
  let commonT := promoteTypes a.dtype b.dtype true
  if canCast commonT out.dtype then
    match broadcastShapes a.sizes b.sizes with
    | some tgt =>
      .ok { out with
            sizes := tgt
            data := (List.range tgt.prod).map (fun k =>
              castVal out.dtype (mulVal commonT
                (castVal commonT (a.data.getD (broadcastSrcIdx a.sizes tgt k) 0))
                (castVal commonT (b.data.getD (broadcastSrcIdx b.sizes tgt k) 0)))) }
    | none => .error .InvalidArgument
  else .error .InvalidArgument

/-- Translation of the `kBroadcast2dBy1d` branch of `opt_mul_out`: the output
is resized to the matrix operand's shape and `broadcasting_map_2d_by_1d`
multiplies each length-`C` row of `lhs` elementwise with `rhs`, with `R` and
`C` read from the last two dimensions of `lhs`. -/
def broadcastRun (lhs rhs out : Tensor) : Tensor :=
  let r := lhs.sizes.getD (lhs.sizes.length - 2) 1
  let c := lhs.sizes.getD (lhs.sizes.length - 1) 1
  { out with
    sizes := lhs.sizes
    data := (List.range (r * c)).map (fun k =>
      mulVal out.dtype (lhs.data.getD k 0) (rhs.data.getD (k % c) 0)) }

/-- Translation of the path dispatch of `opt_mul_out` after the two
single-element shortcuts: select a path, resize the output and run the
selected loop (`resize_tensor` is the collaborator of spec §6 and is
modelled as succeeding). -/
def runSelectedPath (a b out : Tensor) : Except Err Tensor :=
  match select_optimized_path a b out with
  | .kTreatAs1d =>
    .ok { out with
          sizes := a.sizes
          data := (List.range a.sizes.prod).map (fun i =>
            mulVal out.dtype (a.data.getD i 0) (b.data.getD i 0)) }
  | .kBroadcast2dBy1d => .ok (broadcastRun a b out)
  | .kBroadcast2dBy1dReverseArguments => .ok (broadcastRun b a out)
  | .kNone => generalPath a b out

/-- Translation of the body of `opt_mul_out` without the argument-swapping
recursion: the single-element right-operand fast loop when all three types
agree and are not `Half`, otherwise the path dispatch. -/
def opt_mul_out_noswap (a b out : Tensor) : Except Err Tensor :=
  if b.numel = 1 ∧ a.dtype = b.dtype ∧ a.dtype = out.dtype ∧ a.dtype ≠ .Half then
    .ok { out with
          sizes := a.sizes
          data := (List.range a.sizes.prod).map (fun i =>
            mulVal a.dtype (a.data.getD i 0) (castVal a.dtype (b.data.getD 0 0))) }
  else runSelectedPath a b out

/-- Translation of `opt_mul_out`.  When the right operand is not
single-element but the left one is, the source recurses once with swapped
operands; the recursion is unfolded here (the recursive call necessarily
takes its single-element right-operand branch structure). -/
def opt_mul_out (a b out : Tensor) : Except Err Tensor :=
  if b.numel = 1 then opt_mul_out_noswap a b out
  else if a.numel = 1 then opt_mul_out_noswap b a out
  else opt_mul_out_noswap a b out

/-- A scalar argument: a tagged integer, floating-point or boolean payload
(floating payloads are modelled as exact integers). -/
inductive ScalarV where
  | i (v : Int)
  | f (v : Int)
  | b (v : Bool)
deriving DecidableEq, Repr

/-- Modelled from the spec (§4.2; `utils::get_scalar_dtype` is not part of
the sources): the resolved type of a scalar payload. -/
def get_scalar_dtype : ScalarV → ScalarType
  | .b _ => .Bool
  | .i _ => .Long
  | .f _ => .Double

/-- The numeric payload of a scalar (`ET_EXTRACT_SCALAR`). -/
def ScalarV.val : ScalarV → Int
  | .i v => v
  | .f v => v
  | .b v => if v then 1 else 0

/-- Modelled from the spec (§4.2: "an analogous promotion is computed from
the tensor's type and the scalar's resolved type";
`utils::promote_type_with_scalar` is not part of the sources): a boolean
scalar never widens the tensor type, an integer scalar widens only a `Bool`
tensor (to the default integer kind), a floating scalar leaves a floating
tensor type unchanged (with the optional half widening) and promotes an
integer or boolean tensor to the full floating-point kind. -/
def promote_type_with_scalar (t : ScalarType) (s : ScalarV)
    (halfToFloat : Bool) : ScalarType :=
  match s with
  | .b _ => t
  | .i _ => if t = .Bool then .Long else t
  | .f _ =>
    if isFloatTy t then (if halfToFloat ∧ t = .Half then .Float else t)
    else .Float

/-- Translation of `opt_mul_scalar_out`.  The `ET_CHECK` of the promoted
common type against the output type is a fatal assertion (it aborts, it does
not surface a kernel error); `Half` is then coerced to `Float` as the compute
type, the output is resized to the input shape, and either the homogeneous
vectorized loop or the casting loop runs. -/
def opt_mul_scalar_out (a : Tensor) (b : ScalarV) (out : Tensor) :
    Except Err Tensor :=
  let a_type := a.dtype
  let common0 := promote_type_with_scalar a_type b false
  let out_type := out.dtype
  if common0 = out_type then
    let commonT := if common0 = .Half then .Float else common0
    if a_type = commonT ∧ a_type = out_type ∧ a_type ≠ .Half then
      .ok { out with
            sizes := a.sizes
            data := (List.range a.sizes.prod).map (fun i =>
              mulVal a_type (a.data.getD i 0) (castVal a_type b.val)) }
    else
      .ok { out with
            sizes := a.sizes
            data := (List.range a.sizes.prod).map (fun i =>
              castVal out_type (mulVal commonT
                (castVal commonT (a.data.getD i 0))
                (castVal commonT b.val))) }
  else .error .FatalAssert

/-- State of a tensor-tensor call: both (const) inputs and the output. -/
structure MulCallState where
  a : Tensor
  b : Tensor
  out : Tensor
deriving DecidableEq, Repr

/-- State of a tensor-scalar call. -/
structure MulScalarCallState where
  a : Tensor
  b : ScalarV
  out : Tensor
deriving DecidableEq, Repr

/-- State-passing form of `opt_mul_out`: the source takes `a` and `b` by
const reference and writes only through `out`, so the call rebuilds the
state with the new output tensor. -/
def opt_mul_out_call (s : MulCallState) : Except Err MulCallState :=
  (opt_mul_out s.a s.b s.out).map (fun o => { a := s.a, b := s.b, out := o })

/-- State-passing form of `opt_mul_scalar_out`. -/
def opt_mul_scalar_out_call (s : MulScalarCallState) :
    Except Err MulScalarCallState :=
  (opt_mul_scalar_out s.a s.b s.out).map
    (fun o => { a := s.a, b := s.b, out := o })

example : opt_mul_out ⟨[2, 2], .Int, [1, 2, 3, 4]⟩ ⟨[2], .Int, [10, 20]⟩
    ⟨[4], .Int, [0, 0, 0, 0]⟩ = .ok ⟨[2, 2], .Int, [10, 40, 30, 80]⟩ := rfl

example : opt_mul_out ⟨[2], .Float, [2, 3]⟩ ⟨[2], .Float, [4, 5]⟩
    ⟨[2], .Int, [0, 0]⟩ = .error .InvalidArgument := rfl

example : opt_mul_out ⟨[2], .Int, [2, 3]⟩ ⟨[2], .Float, [4, 5]⟩
    ⟨[2], .Float, [0, 0]⟩ = .ok ⟨[2], .Float, [8, 15]⟩ := rfl

example : opt_mul_scalar_out ⟨[2], .Float, [2, 3]⟩ (.i 2)
    ⟨[2], .Int, [0, 0]⟩ = .error .FatalAssert := rfl

example : opt_mul_out ⟨[1], .Int, [7]⟩ ⟨[3], .Int, [1, 2, 3]⟩
    ⟨[3], .Int, [0, 0, 0]⟩ = .ok ⟨[3], .Int, [7, 14, 21]⟩ := rfl

theorem toDomain_id {t : ScalarType} {v : Int} (h : inDomain t v = true) :
    toDomain t v = v := by
  cases t <;> simp [inDomain, toDomain] at h ⊢
  case Bool => rcases h with h | h <;> simp [h]
  all_goals omega

theorem inDomain_toDomain (t : ScalarType) (v : Int) :
    inDomain t (toDomain t v) = true := by
  cases t <;> simp [inDomain, toDomain] <;> omega

theorem toDomain_idem (t : ScalarType) (v : Int) :
    toDomain t (toDomain t v) = toDomain t v :=
  toDomain_id (inDomain_toDomain t v)

theorem castVal_mulVal (t : ScalarType) (x y : Int) :
    castVal t (mulVal t x y) = mulVal t x y :=
  toDomain_idem t (x * y)

theorem mulVal_comm (t : ScalarType) (x y : Int) :
    mulVal t x y = mulVal t y x := by
  unfold mulVal; rw [Int.mul_comm]

theorem canCast_self (t : ScalarType) : canCast t t = true := by
  cases t <;> rfl

theorem promoteBase_comm (a b : ScalarType) : promoteBase a b = promoteBase b a := by
  cases a <;> cases b <;> rfl

theorem promoteTypes_comm (a b : ScalarType) (hf : Bool) :
    promoteTypes a b hf = promoteTypes b a hf := by
  unfold promoteTypes; rw [promoteBase_comm]

theorem promoteBase_self (t : ScalarType) : promoteBase t t = t := by
  unfold promoteBase; simp

theorem promoteTypes_self {t : ScalarType} (h : t ≠ .Half) (hf : Bool) :
    promoteTypes t t hf = t := by
  unfold promoteTypes
  rw [promoteBase_self]
  simp [h]

theorem stripLeading1s_cons_one (xs : List Nat) :
    stripLeading1s (1 :: xs) = stripLeading1s xs := rfl

theorem stripLeading1s_cons_ne {x : Nat} (xs : List Nat) (hx : x ≠ 1) :
    stripLeading1s (x :: xs) = x :: xs := by
  have hb : (x == 1) = false := by simpa using hx
  simp [stripLeading1s, List.dropWhile, hb]

theorem stripLeading1s_prod (l : List Nat) : (stripLeading1s l).prod = l.prod := by
  induction l with
  | nil => rfl
  | cons x xs ih =>
    by_cases hx : x = 1
    · subst hx
      rw [stripLeading1s_cons_one]
      simpa using ih
    · rw [stripLeading1s_cons_ne xs hx]

theorem stripLeading1s_head_ne_one {l : List Nat} {x : Nat} {xs : List Nat}
    (h : stripLeading1s l = x :: xs) : x ≠ 1 := by
  induction l with
  | nil => simp [stripLeading1s] at h
  | cons y ys ih =>
    by_cases hy : y = 1
    · subst hy
      rw [stripLeading1s_cons_one] at h
      exact ih h
    · rw [stripLeading1s_cons_ne ys hy] at h
      cases h
      exact hy

theorem getD_range_map {n k : Nat} (f : Nat → Int) (d : Int) (hk : k < n) :
    ((List.range n).map f).getD k d = f k := by
  rw [List.getD_eq_getElem?_getD, List.getElem?_map, List.getElem?_range hk]
  rfl

theorem map_range_congr {n : Nat} {f g : Nat → Int}
    (h : ∀ k < n, f k = g k) :
    (List.range n).map f = (List.range n).map g :=
  List.map_congr_left (fun x hx => h x (List.mem_range.mp hx))

theorem wf_getD_inDomain {t : Tensor} (ht : t.wf) {k : Nat} (hk : k < t.numel) :
    inDomain t.dtype (t.data.getD k 0) = true := by
  have hlen : k < t.data.length := by rw [ht.1]; exact hk
  rw [List.getD_eq_getElem _ _ hlen]
  exact ht.2 _ (List.getElem_mem hlen)

theorem broadcastDim_comm (x y : Nat) : broadcastDim x y = broadcastDim y x := by
  unfold broadcastDim
  by_cases hxy : x = y
  · simp [hxy]
  · have hyx : ¬y = x := fun h => hxy h.symm
    by_cases hx : x = 1 <;> by_cases hy : y = 1 <;> simp_all

theorem broadcastDim_self (x : Nat) : broadcastDim x x = some x := by
  simp [broadcastDim]

theorem broadcastShapesRev_comm (xs ys : List Nat) :
    broadcastShapesRev xs ys = broadcastShapesRev ys xs := by
  induction xs generalizing ys with
  | nil => cases ys <;> rfl
  | cons x xs ih =>
    cases ys with
    | nil => rfl
    | cons y ys =>
      rw [broadcastShapesRev, broadcastShapesRev, broadcastDim_comm, ih]

theorem broadcastShapes_comm (s t : List Nat) :
    broadcastShapes s t = broadcastShapes t s := by
  unfold broadcastShapes
  rw [broadcastShapesRev_comm]

theorem broadcastShapesRev_self (xs : List Nat) :
    broadcastShapesRev xs xs = some xs := by
  induction xs with
  | nil => rfl
  | cons x xs ih =>
    rw [broadcastShapesRev, broadcastDim_self, ih]

theorem broadcastShapes_self (s : List Nat) : broadcastShapes s s = some s := by
  unfold broadcastShapes
  rw [broadcastShapesRev_self]
  simp

theorem flatten_broadcastCoord_unflatten (ds : List Nat) :
    ∀ k : Nat, k < ds.prod →
      flattenRevIdx ds (broadcastCoord ds (unflattenRev ds k)) = k := by
  induction ds with
  | nil =>
    intro k hk
    simp at hk
    simp [unflattenRev, broadcastCoord, flattenRevIdx, hk]
  | cons d ds ih =>
    intro k hk
    have hd : 0 < d := by
      rcases Nat.eq_zero_or_pos d with h0 | h0
      · subst h0; simp at hk
      · exact h0
    have hdiv : k / d < ds.prod := by
      apply Nat.div_lt_of_lt_mul
      simpa using hk
    have hhead : (if d = 1 then 0 else k % d) = k % d := by
      by_cases h1 : d = 1
      · subst h1; simp [Nat.mod_one]
      · simp [h1]
    rw [unflattenRev, broadcastCoord, List.zipWith]
    rw [flattenRevIdx]
    show (if d = 1 then 0 else k % d) + d * flattenRevIdx ds
        (broadcastCoord ds (unflattenRev ds (k / d))) = k
    rw [hhead, ih (k / d) hdiv, Nat.mod_add_div]

theorem broadcastSrcIdx_self {s : List Nat} {k : Nat} (hk : k < s.prod) :
    broadcastSrcIdx s s k = k := by
  unfold broadcastSrcIdx
  apply flatten_broadcastCoord_unflatten s.reverse k
  rw [List.prod_reverse]
  exact hk

theorem stripLeading1s_length_le (l : List Nat) :
    (stripLeading1s l).length ≤ l.length := by
  induction l with
  | nil => simp [stripLeading1s]
  | cons x xs ih =>
    by_cases hx : x = 1
    · subst hx
      rw [stripLeading1s_cons_one]
      simp
      omega
    · rw [stripLeading1s_cons_ne xs hx]

theorem getD_last_two_of_strip {l : List Nat} {x y : Nat} (d : Nat)
    (h : stripLeading1s l = [x, y]) :
    l.getD (l.length - 2) d = x ∧ l.getD (l.length - 1) d = y := by
  induction l with
  | nil => simp [stripLeading1s] at h
  | cons z zs ih =>
    by_cases hz : z = 1
    · subst hz
      rw [stripLeading1s_cons_one] at h
      have hlen : 2 ≤ zs.length := by
        have h1 : (stripLeading1s zs).length ≤ zs.length := stripLeading1s_length_le zs
        rw [h] at h1
        simpa using h1
      obtain ⟨m, hm⟩ : ∃ m, zs.length = m + 2 := ⟨zs.length - 2, by omega⟩
      have h2 : (1 :: zs).length - 2 = m + 1 := by simp [hm]
      have h3 : (1 :: zs).length - 1 = m + 2 := by simp [hm]
      rw [h2, h3]
      have := ih h
      rw [hm] at this
      simpa using this
    · rw [stripLeading1s_cons_ne zs hz] at h
      cases h
      simp

theorem sizes_match_iff (lhs rhs : List Nat) :
    sizes_match_ignoring_leading_1s lhs rhs = true ↔
      stripLeading1s lhs = stripLeading1s rhs := by
  unfold sizes_match_ignoring_leading_1s
  simp only [Bool.and_eq_true, beq_iff_eq]
  constructor
  · rintro ⟨-, h⟩
    exact h
  · intro h
    exact ⟨by rw [h], h⟩

theorem select_broadcast_ne_treat (lhs rhs : Tensor) :
    select_broadcast_2d_by_1d_optimized_path lhs rhs ≠ .kTreatAs1d := by
  unfold select_broadcast_2d_by_1d_optimized_path
  dsimp only
  split_ifs <;> simp

theorem select_kNone_of_type_mismatch {a b out : Tensor}
    (h : a.dtype ≠ b.dtype ∨ a.dtype ≠ out.dtype ∨ a.dtype = .Half) :
    select_optimized_path a b out = .kNone := by
  unfold select_optimized_path
  rw [if_pos h]

theorem select_treat_iff (a b out : Tensor) :
    select_optimized_path a b out = .kTreatAs1d ↔
      (a.dtype = b.dtype ∧ a.dtype = out.dtype ∧ a.dtype ≠ .Half ∧
        (a.sizes = b.sizes ∨
          (a.numel = b.numel ∧
            (a.numel = out.numel ∨
              stripLeading1s a.sizes = stripLeading1s b.sizes)))) := by
  unfold select_optimized_path
  split_ifs with h1 h2
  · constructor
    · intro h
      exact absurd h (by decide)
    · rintro ⟨t1, t2, t3, -⟩
      exfalso
      rcases h1 with h | h | h
      · exact h t1
      · exact h t2
      · exact t3 h
  · push_neg at h1
    constructor
    · intro _
      refine ⟨h1.1, h1.2.1, h1.2.2, ?_⟩
      rcases h2 with h | ⟨hn, hrest⟩
      · exact Or.inl h
      · refine Or.inr ⟨hn, ?_⟩
        rcases hrest with h | h
        · exact Or.inl h
        · exact Or.inr ((sizes_match_iff _ _).mp h)
    · intro _
      rfl
  · constructor
    · intro h
      exact absurd h (select_broadcast_ne_treat a b)
    · rintro ⟨-, -, -, hsh⟩
      exfalso
      apply h2
      rcases hsh with h | ⟨hn, hrest⟩
      · exact Or.inl h
      · refine Or.inr ⟨hn, ?_⟩
        rcases hrest with h | h
        · exact Or.inl h
        · exact Or.inr ((sizes_match_iff _ _).mpr h)

/-- C2: the path selector returns `kTreatAs1d` (Flatten1D) iff all three
element types are identical and not `Half`, and either the raw shapes are
exactly equal, or the element counts of the inputs are equal and (the output
element count equals that count, or the stripped-of-leading-1s suffixes of
the two input shapes are equal); and any type mismatch (or a `Half` type)
forces `kNone` regardless of shape. -/
theorem select_optimized_path_flatten1d_iff (a b out : Tensor) :
    (select_optimized_path a b out = .kTreatAs1d ↔
      (a.dtype = b.dtype ∧ a.dtype = out.dtype ∧ a.dtype ≠ .Half ∧
        (a.sizes = b.sizes ∨
          (a.numel = b.numel ∧
            (a.numel = out.numel ∨
              stripLeading1s a.sizes = stripLeading1s b.sizes))))) ∧
    ((a.dtype ≠ b.dtype ∨ a.dtype ≠ out.dtype ∨ a.dtype = .Half) →
      select_optimized_path a b out = .kNone) :=
  ⟨select_treat_iff a b out, select_kNone_of_type_mismatch⟩

/-- Concrete instance of the Flatten1D characterization: shapes `[1,1,6]`
and `[6]` with equal types select the 1-D path, and a type mismatch forces
`kNone`. -/
theorem select_optimized_path_flatten1d_iff_witness :
    select_optimized_path ⟨[1, 1, 6], .Float, []⟩ ⟨[6], .Float, []⟩
      ⟨[6], .Float, []⟩ = .kTreatAs1d ∧
    select_optimized_path ⟨[6], .Float, []⟩ ⟨[6], .Int, []⟩
      ⟨[6], .Float, []⟩ = .kNone :=
  ⟨(select_optimized_path_flatten1d_iff _ _ _).1.mpr (by decide),
   (select_optimized_path_flatten1d_iff _ _ _).2 (by decide)⟩

/-- C3: given identical non-`Half` element types and a shape pair that does
not satisfy the Flatten1D rule, the selector returns `kBroadcast2dBy1d` iff
the left operand strips to rank 2, the right strips to rank 1, and the left
trailing extent equals the right extent; the symmetric case returns the
swapped variant; and an operand stripping to rank 0 (all extents 1) yields
`kNone`. -/
theorem select_optimized_path_broadcast2d1d_iff (a b out : Tensor)
    (ht1 : a.dtype = b.dtype) (ht2 : a.dtype = out.dtype) (ht3 : a.dtype ≠ .Half)
    (hsh : ¬(a.sizes = b.sizes ∨
      (a.numel = b.numel ∧
        (a.numel = out.numel ∨
          sizes_match_ignoring_leading_1s a.sizes b.sizes = true)))) :
    (select_optimized_path a b out = .kBroadcast2dBy1d ↔
      ((stripLeading1s a.sizes).length = 2 ∧
       (stripLeading1s b.sizes).length = 1 ∧
       (stripLeading1s a.sizes).getD 1 0 = (stripLeading1s b.sizes).getD 0 0)) ∧
    (select_optimized_path a b out = .kBroadcast2dBy1dReverseArguments ↔
      ((stripLeading1s a.sizes).length = 1 ∧
       (stripLeading1s b.sizes).length = 2 ∧
       (stripLeading1s b.sizes).getD 1 0 = (stripLeading1s a.sizes).getD 0 0)) ∧
    ((stripLeading1s a.sizes = [] ∨ stripLeading1s b.sizes = []) →
      select_optimized_path a b out = .kNone) := by
  have hguard : ¬(a.dtype ≠ b.dtype ∨ a.dtype ≠ out.dtype ∨ a.dtype = .Half) := by
    rintro (h | h | h)
    · exact h ht1
    · exact h ht2
    · exact ht3 h
  have hred : select_optimized_path a b out =
      select_broadcast_2d_by_1d_optimized_path a b := by
    unfold select_optimized_path
    rw [if_neg hguard, if_neg hsh]
  rw [hred]
  unfold select_broadcast_2d_by_1d_optimized_path
  dsimp only
  split_ifs with hP1 hP2
  · refine ⟨⟨fun _ => hP1, fun _ => rfl⟩, ⟨fun h => absurd h (by decide), ?_⟩, ?_⟩
    · rintro ⟨h1, -, -⟩
      exact absurd (hP1.1.symm.trans h1) (by decide)
    · rintro (h | h)
      · rw [h] at hP1
        exact absurd hP1.1 (by decide)
      · rw [h] at hP1
        exact absurd hP1.2.1 (by decide)
  · refine ⟨⟨fun h => absurd h (by decide), fun h => absurd h hP1⟩,
      ⟨fun _ => hP2, fun _ => rfl⟩, ?_⟩
    rintro (h | h)
    · rw [h] at hP2
      exact absurd hP2.1 (by decide)
    · rw [h] at hP2
      exact absurd hP2.2.1 (by decide)
  · exact ⟨⟨fun h => absurd h (by decide), fun h => absurd h hP1⟩,
      ⟨fun h => absurd h (by decide), fun h => absurd h hP2⟩, fun _ => rfl⟩

/-- Concrete instance of the row-broadcast characterization: shapes `[2,2]`
and `[2]` select `kBroadcast2dBy1d`, and an all-1s right operand (stripping
to rank 0) selects `kNone`. -/
theorem select_optimized_path_broadcast2d1d_iff_witness :
    select_optimized_path ⟨[2, 2], .Int, []⟩ ⟨[2], .Int, []⟩ ⟨[2, 2], .Int, []⟩
      = .kBroadcast2dBy1d ∧
    select_optimized_path ⟨[2, 3], .Int, []⟩ ⟨[1, 1], .Int, []⟩ ⟨[2, 3], .Int, []⟩
      = .kNone :=
  ⟨(select_optimized_path_broadcast2d1d_iff ⟨[2, 2], .Int, []⟩ ⟨[2], .Int, []⟩
      ⟨[2, 2], .Int, []⟩ (by decide) (by decide) (by decide) (by decide)).1.mpr
      (by decide),
   (select_optimized_path_broadcast2d1d_iff ⟨[2, 3], .Int, []⟩ ⟨[1, 1], .Int, []⟩
      ⟨[2, 3], .Int, []⟩ (by decide) (by decide) (by decide) (by decide)).2.2
      (by decide)⟩

/-- C4: when the right operand is a single-element tensor and both operand
types equal the output type and are not `Half`, `opt_mul_out` runs the
dedicated scalar-broadcast loop (output resized to the left operand's shape,
each element multiplied by the single value) without any promotion; and when
instead only the left operand is single-element, the call equals the call
with operands swapped (the one-level recursion of the source). -/
theorem opt_mul_out_scalar_shortcut (a b out : Tensor) :
    (b.numel = 1 → a.dtype = b.dtype → a.dtype = out.dtype → a.dtype ≠ .Half →
      opt_mul_out a b out = .ok { out with
        sizes := a.sizes
        data := (List.range a.sizes.prod).map (fun i =>
          mulVal a.dtype (a.data.getD i 0) (castVal a.dtype (b.data.getD 0 0))) }) ∧
    (a.numel = 1 → b.numel ≠ 1 → opt_mul_out a b out = opt_mul_out b a out) := by
  constructor
  · intro hb1 ht1 ht2 ht3
    unfold opt_mul_out
    rw [if_pos hb1]
    unfold opt_mul_out_noswap
    rw [if_pos ⟨hb1, ht1, ht2, ht3⟩]
  · intro ha1 hb1
    unfold opt_mul_out
    rw [if_neg hb1, if_pos ha1, if_pos ha1]

/-- Concrete instance of the scalar shortcut: `[3,4] * [5]` runs the fast
loop, and a single-element left operand swaps to the same call. -/
theorem opt_mul_out_scalar_shortcut_witness :
    opt_mul_out ⟨[2], .Int, [3, 4]⟩ ⟨[1], .Int, [5]⟩ ⟨[2], .Int, [0, 0]⟩
      = .ok ⟨[2], .Int, [15, 20]⟩ ∧
    opt_mul_out ⟨[1], .Int, [5]⟩ ⟨[2], .Int, [3, 4]⟩ ⟨[2], .Int, [0, 0]⟩
      = opt_mul_out ⟨[2], .Int, [3, 4]⟩ ⟨[1], .Int, [5]⟩ ⟨[2], .Int, [0, 0]⟩ :=
  ⟨((opt_mul_out_scalar_shortcut ⟨[2], .Int, [3, 4]⟩ ⟨[1], .Int, [5]⟩
      ⟨[2], .Int, [0, 0]⟩).1 rfl rfl rfl (by decide)).trans rfl,
   (opt_mul_out_scalar_shortcut ⟨[1], .Int, [5]⟩ ⟨[2], .Int, [3, 4]⟩
      ⟨[2], .Int, [0, 0]⟩).2 rfl (by decide)⟩

theorem generalPath_of_canCast_false {a b out : Tensor}
    (h : canCast (promoteTypes a.dtype b.dtype true) out.dtype = false) :
    generalPath a b out = .error .InvalidArgument := by
  unfold generalPath
  dsimp only
  rw [h]
  rfl

theorem noswap_of_canCast_false {a b out : Tensor}
    (h : canCast (promoteTypes a.dtype b.dtype true) out.dtype = false) :
    opt_mul_out_noswap a b out = .error .InvalidArgument := by
  have htypes : ¬(a.dtype = b.dtype ∧ a.dtype = out.dtype ∧ a.dtype ≠ .Half) := by
    rintro ⟨t1, t2, t3⟩
    rw [← t1, promoteTypes_self t3, t2] at h
    rw [canCast_self] at h
    cases h
  have hsel : select_optimized_path a b out = .kNone := by
    apply select_kNone_of_type_mismatch
    by_contra hcon
    push_neg at hcon
    exact htypes ⟨hcon.1, hcon.2.1, hcon.2.2⟩
  unfold opt_mul_out_noswap
  rw [if_neg (fun hc => htypes ⟨hc.2.1, hc.2.2.1, hc.2.2.2⟩)]
  unfold runSelectedPath
  rw [hsel]
  exact generalPath_of_canCast_false h

/-- C5: on any call whose requested output type is not reachable by the
can-cast rule from the common type computed by promotion with half-to-float
widening, `opt_mul_out` fails with `InvalidArgument` (no fast path can fire,
since every fast path requires the three types to be equal, for which the
cast is always allowed). -/
theorem opt_mul_out_uncastable_output_invalid_argument (a b out : Tensor)
    (h : canCast (promoteTypes a.dtype b.dtype true) out.dtype = false) :
    opt_mul_out a b out = .error .InvalidArgument := by
  have hba : canCast (promoteTypes b.dtype a.dtype true) out.dtype = false := by
    rw [promoteTypes_comm]
    exact h
  unfold opt_mul_out
  split_ifs
  · exact noswap_of_canCast_false h
  · exact noswap_of_canCast_false hba
  · exact noswap_of_canCast_false h

/-- Concrete instance of the unreachable-cast failure: a float32 tensor
times a float32 tensor into an int32 output fails with `InvalidArgument`. -/
theorem opt_mul_out_uncastable_output_invalid_argument_witness :
    opt_mul_out ⟨[2], .Float, [2, 3]⟩ ⟨[2], .Float, [4, 5]⟩ ⟨[2], .Int, [0, 0]⟩
      = .error .InvalidArgument :=
  opt_mul_out_uncastable_output_invalid_argument ⟨[2], .Float, [2, 3]⟩
    ⟨[2], .Float, [4, 5]⟩ ⟨[2], .Int, [0, 0]⟩ (by decide)

/-- Counterexample to C9: for the scalar-operand operator a promoted-type /
output-type mismatch is a fatal assertion (`ET_CHECK` aborts), not an
`InvalidArgument` condition surfaced to the caller: a float32 tensor with an
integer scalar and an int32 output. -/
theorem opt_mul_scalar_out_error_kind_counterexample :
    opt_mul_scalar_out ⟨[1], .Float, [2]⟩ (.i 2) ⟨[1], .Int, [0]⟩
      ≠ .error .InvalidArgument ∧
    opt_mul_scalar_out ⟨[1], .Float, [2]⟩ (.i 2) ⟨[1], .Int, [0]⟩
      = .error .FatalAssert :=
  ⟨(fun h => nomatch h), rfl⟩

/-- Amended C9: for the scalar-operand operator, a mismatch between the
promoted common type and the output type (the check is exact equality, not
cast-reachability) is an unrecoverable fatal assertion (abort), not an
`InvalidArgument` error returned to the caller. -/
theorem opt_mul_scalar_out_type_mismatch_fatal (a : Tensor) (s : ScalarV)
    (out : Tensor) (h : promote_type_with_scalar a.dtype s false ≠ out.dtype) :
    opt_mul_scalar_out a s out = .error .FatalAssert := by
  unfold opt_mul_scalar_out
  dsimp only
  rw [if_neg h]

/-- Concrete instance of the fatal-assert behaviour of the scalar operator. -/
theorem opt_mul_scalar_out_type_mismatch_fatal_witness :
    opt_mul_scalar_out ⟨[1], .Float, [2]⟩ (.f 3) ⟨[1], .Double, [0]⟩
      = .error .FatalAssert :=
  opt_mul_scalar_out_type_mismatch_fatal ⟨[1], .Float, [2]⟩ (.f 3)
    ⟨[1], .Double, [0]⟩ (by decide)

theorem generalPath_dtype {a b out r : Tensor}
    (h : generalPath a b out = .ok r) : r.dtype = out.dtype := by
  unfold generalPath at h
  dsimp only at h
  by_cases hcc : canCast (promoteTypes a.dtype b.dtype true) out.dtype = true
  · rw [if_pos hcc] at h
    cases hbs : broadcastShapes a.sizes b.sizes with
    | some tgt =>
      rw [hbs] at h
      injection h with h2
      subst h2
      rfl
    | none =>
      rw [hbs] at h
      cases h
  · rw [if_neg hcc] at h
    cases h

theorem runSelectedPath_dtype {a b out r : Tensor}
    (h : runSelectedPath a b out = .ok r) : r.dtype = out.dtype := by
  unfold runSelectedPath at h
  cases hsel : select_optimized_path a b out <;> rw [hsel] at h
  case kNone => exact generalPath_dtype h
  case kTreatAs1d =>
    injection h with h2
    subst h2
    rfl
  case kBroadcast2dBy1d =>
    injection h with h2
    subst h2
    rfl
  case kBroadcast2dBy1dReverseArguments =>
    injection h with h2
    subst h2
    rfl

theorem opt_mul_out_noswap_dtype {a b out r : Tensor}
    (h : opt_mul_out_noswap a b out = .ok r) : r.dtype = out.dtype := by
  unfold opt_mul_out_noswap at h
  by_cases hc : b.numel = 1 ∧ a.dtype = b.dtype ∧ a.dtype = out.dtype ∧
      a.dtype ≠ .Half
  · rw [if_pos hc] at h
    injection h with h2
    subst h2
    rfl
  · rw [if_neg hc] at h
    exact runSelectedPath_dtype h

theorem opt_mul_out_dtype {a b out r : Tensor}
    (h : opt_mul_out a b out = .ok r) : r.dtype = out.dtype := by
  unfold opt_mul_out at h
  by_cases hb : b.numel = 1
  · rw [if_pos hb] at h
    exact opt_mul_out_noswap_dtype h
  · rw [if_neg hb] at h
    by_cases ha : a.numel = 1
    · rw [if_pos ha] at h
      exact opt_mul_out_noswap_dtype h
    · rw [if_neg ha] at h
      exact opt_mul_out_noswap_dtype h

theorem opt_mul_scalar_out_dtype {a : Tensor} {s : ScalarV} {out r : Tensor}
    (h : opt_mul_scalar_out a s out = .ok r) : r.dtype = out.dtype := by
  unfold opt_mul_scalar_out at h
  dsimp only at h
  by_cases hc : promote_type_with_scalar a.dtype s false = out.dtype
  · rw [if_pos hc] at h
    by_cases hf : a.dtype = (if promote_type_with_scalar a.dtype s false
        = ScalarType.Half then ScalarType.Float
        else promote_type_with_scalar a.dtype s false) ∧
        a.dtype = out.dtype ∧ a.dtype ≠ .Half
    · rw [if_pos hf] at h
      injection h with h2
      subst h2
      rfl
    · rw [if_neg hf] at h
      injection h with h2
      subst h2
      rfl
  · rw [if_neg hc] at h
    cases h

/-- C10: both operators leave the input tensors (and the scalar argument)
unchanged, and modify only the output tensor's shape and contents: in the
state-passing form of each call the input fields of a successful result
state equal those of the initial state, and even the output tensor's element
type tag is unchanged. -/
theorem opt_mul_calls_preserve_inputs :
    (∀ (s : MulCallState) (r : MulCallState), opt_mul_out_call s = .ok r →
      r.a = s.a ∧ r.b = s.b ∧ r.out.dtype = s.out.dtype) ∧
    (∀ (s : MulScalarCallState) (r : MulScalarCallState),
      opt_mul_scalar_out_call s = .ok r →
      r.a = s.a ∧ r.b = s.b ∧ r.out.dtype = s.out.dtype) := by
  constructor
  · intro s r h
    unfold opt_mul_out_call at h
    cases hov : opt_mul_out s.a s.b s.out with
    | error e =>
      rw [hov] at h
      cases h
    | ok o =>
      rw [hov] at h
      injection h with h2
      rw [← h2]
      exact ⟨rfl, rfl, opt_mul_out_dtype hov⟩
  · intro s r h
    unfold opt_mul_scalar_out_call at h
    cases hov : opt_mul_scalar_out s.a s.b s.out with
    | error e =>
      rw [hov] at h
      cases h
    | ok o =>
      rw [hov] at h
      injection h with h2
      rw [← h2]
      exact ⟨rfl, rfl, opt_mul_scalar_out_dtype hov⟩

/-- Concrete instance of input preservation for a tensor-tensor call. -/
theorem opt_mul_calls_preserve_inputs_witness :
    (⟨⟨[1], .Int, [2]⟩, ⟨[1], .Int, [3]⟩, ⟨[1], .Int, [6]⟩⟩ : MulCallState).a
      = (⟨⟨[1], .Int, [2]⟩, ⟨[1], .Int, [3]⟩, ⟨[1], .Int, [0]⟩⟩ : MulCallState).a ∧
    (⟨⟨[1], .Int, [2]⟩, ⟨[1], .Int, [3]⟩, ⟨[1], .Int, [6]⟩⟩ : MulCallState).b
      = (⟨⟨[1], .Int, [2]⟩, ⟨[1], .Int, [3]⟩, ⟨[1], .Int, [0]⟩⟩ : MulCallState).b ∧
    (⟨⟨[1], .Int, [2]⟩, ⟨[1], .Int, [3]⟩, ⟨[1], .Int, [6]⟩⟩ : MulCallState).out.dtype
      = (⟨⟨[1], .Int, [2]⟩, ⟨[1], .Int, [3]⟩, ⟨[1], .Int, [0]⟩⟩ : MulCallState).out.dtype :=
  opt_mul_calls_preserve_inputs.1
    ⟨⟨[1], .Int, [2]⟩, ⟨[1], .Int, [3]⟩, ⟨[1], .Int, [0]⟩⟩
    ⟨⟨[1], .Int, [2]⟩, ⟨[1], .Int, [3]⟩, ⟨[1], .Int, [6]⟩⟩ rfl

theorem select_eq_b2d1_inv {a b out : Tensor}
    (h : select_optimized_path a b out = .kBroadcast2dBy1d) :
    (stripLeading1s a.sizes).length = 2 ∧
    (stripLeading1s b.sizes).length = 1 ∧
    (stripLeading1s a.sizes).getD 1 0 = (stripLeading1s b.sizes).getD 0 0 := by
  unfold select_optimized_path at h
  split_ifs at h
  unfold select_broadcast_2d_by_1d_optimized_path at h
  dsimp only at h
  split_ifs at h with hP1 hP2
  exact hP1

theorem select_eq_rev_inv {a b out : Tensor}
    (h : select_optimized_path a b out =
      .kBroadcast2dBy1dReverseArguments) :
    (stripLeading1s a.sizes).length = 1 ∧
    (stripLeading1s b.sizes).length = 2 ∧
    (stripLeading1s b.sizes).getD 1 0 = (stripLeading1s a.sizes).getD 0 0 := by
  unfold select_optimized_path at h
  split_ifs at h
  unfold select_broadcast_2d_by_1d_optimized_path at h
  dsimp only at h
  split_ifs at h with hP1 hP2
  exact hP2

theorem list_length_two {l : List Nat} (h : l.length = 2) :
    ∃ x y, l = [x, y] := by
  cases l with
  | nil => simp at h
  | cons x t =>
    cases t with
    | nil => simp at h
    | cons y t2 =>
      cases t2 with
      | nil => exact ⟨x, y, rfl⟩
      | cons z t3 => simp at h

theorem list_length_one {l : List Nat} (h : l.length = 1) :
    ∃ x, l = [x] := by
  cases l with
  | nil => simp at h
  | cons x t =>
    cases t with
    | nil => exact ⟨x, rfl⟩
    | cons y t2 => simp at h

theorem numel_of_strip_singleton {t : Tensor} {c : Nat}
    (h : stripLeading1s t.sizes = [c]) : t.numel = c := by
  have hp := stripLeading1s_prod t.sizes
  rw [h] at hp
  unfold Tensor.numel
  rw [← hp]
  simp

theorem numel_of_strip_pair {t : Tensor} {r c : Nat}
    (h : stripLeading1s t.sizes = [r, c]) : t.numel = r * c := by
  have hp := stripLeading1s_prod t.sizes
  rw [h] at hp
  unfold Tensor.numel
  rw [← hp]
  simp [Nat.mul_assoc]

theorem row_col_index_lt {i j R C : Nat} (hi : i < R) (hj : j < C) :
    i * C + j < R * C := by
  have h1 : i * C + j < (i + 1) * C := by
    rw [Nat.succ_mul]
    omega
  exact lt_of_lt_of_le h1 (Nat.mul_le_mul_right C (Nat.succ_le_of_lt hi))

theorem broadcastRun_rows (rhs out : Tensor) {lhs : Tensor} {R C : Nat}
    (hsa : stripLeading1s lhs.sizes = [R, C]) :
    (broadcastRun lhs rhs out).sizes = lhs.sizes ∧
    ∀ i j : Nat, i < R → j < C →
      (broadcastRun lhs rhs out).data.getD (i * C + j) 0
        = mulVal out.dtype (lhs.data.getD (i * C + j) 0) (rhs.data.getD j 0) := by
  obtain ⟨hge0, hge1⟩ := getD_last_two_of_strip 1 hsa
  refine ⟨rfl, ?_⟩
  intro i j hi hj
  unfold broadcastRun
  dsimp only
  rw [hge0, hge1]
  rw [getD_range_map _ _ (row_col_index_lt hi hj)]
  have hmod : (i * C + j) % C = j := by
    rw [Nat.add_mod, Nat.mul_mod_left]
    simp [Nat.mod_eq_of_lt hj]
  rw [hmod]

/-- C7: on the row-broadcast paths (including the swapped variant) the
output is resized to the 2D (matrix) operand's shape and, for each of the
`R` rows of length `C` of the matrix operand, output row `i` equals the
elementwise product of input row `i` with the length-`C` vector operand. -/
theorem opt_mul_out_broadcast_rows_correct (a b out : Tensor) :
    (select_optimized_path a b out = .kBroadcast2dBy1d →
      opt_mul_out a b out = .ok (broadcastRun a b out) ∧
      (broadcastRun a b out).sizes = a.sizes ∧
      ∀ i j : Nat, i < (stripLeading1s a.sizes).getD 0 0 →
        j < (stripLeading1s a.sizes).getD 1 0 →
        (broadcastRun a b out).data.getD
            (i * (stripLeading1s a.sizes).getD 1 0 + j) 0
          = mulVal out.dtype
              (a.data.getD (i * (stripLeading1s a.sizes).getD 1 0 + j) 0)
              (b.data.getD j 0)) ∧
    (select_optimized_path a b out = .kBroadcast2dBy1dReverseArguments →
      opt_mul_out a b out = .ok (broadcastRun b a out) ∧
      (broadcastRun b a out).sizes = b.sizes ∧
      ∀ i j : Nat, i < (stripLeading1s b.sizes).getD 0 0 →
        j < (stripLeading1s b.sizes).getD 1 0 →
        (broadcastRun b a out).data.getD
            (i * (stripLeading1s b.sizes).getD 1 0 + j) 0
          = mulVal out.dtype
              (b.data.getD (i * (stripLeading1s b.sizes).getD 1 0 + j) 0)
              (a.data.getD j 0)) := by
  constructor
  · intro hsel
    obtain ⟨hl2, hl1, hmatch⟩ := select_eq_b2d1_inv hsel
    obtain ⟨R, C, hsa⟩ := list_length_two hl2
    obtain ⟨c2, hsb⟩ := list_length_one hl1
    have hC : C = c2 := by
      rw [hsa, hsb] at hmatch
      simpa using hmatch
    subst hC
    have hRne : R ≠ 1 := stripLeading1s_head_ne_one hsa
    have hCne : C ≠ 1 := stripLeading1s_head_ne_one hsb
    have hbn : b.numel = C := numel_of_strip_singleton hsb
    have han : a.numel = R * C := numel_of_strip_pair hsa
    have hbn1 : b.numel ≠ 1 := by rw [hbn]; exact hCne
    have han1 : a.numel ≠ 1 := by
      rw [han]
      intro hcon
      exact hRne (Nat.eq_one_of_mul_eq_one_right hcon)
    have hopt : opt_mul_out a b out = runSelectedPath a b out := by
      unfold opt_mul_out
      rw [if_neg hbn1, if_neg han1]
      unfold opt_mul_out_noswap
      rw [if_neg (fun hc => hbn1 hc.1)]
    have hrun : runSelectedPath a b out = .ok (broadcastRun a b out) := by
      unfold runSelectedPath
      rw [hsel]
    obtain ⟨hsz, hrows⟩ := broadcastRun_rows b out hsa
    refine ⟨hopt.trans hrun, hsz, ?_⟩
    intro i j hi hj
    rw [hsa] at hi hj ⊢
    exact hrows i j (by simpa using hi) (by simpa using hj)
  · intro hsel
    obtain ⟨hl1, hl2, hmatch⟩ := select_eq_rev_inv hsel
    obtain ⟨R, C, hsb⟩ := list_length_two hl2
    obtain ⟨c2, hsa⟩ := list_length_one hl1
    have hC : C = c2 := by
      rw [hsa, hsb] at hmatch
      simpa using hmatch
    subst hC
    have hRne : R ≠ 1 := stripLeading1s_head_ne_one hsb
    have hCne : C ≠ 1 := stripLeading1s_head_ne_one hsa
    have han : a.numel = C := numel_of_strip_singleton hsa
    have hbn : b.numel = R * C := numel_of_strip_pair hsb
    have han1 : a.numel ≠ 1 := by rw [han]; exact hCne
    have hbn1 : b.numel ≠ 1 := by
      rw [hbn]
      intro hcon
      exact hRne (Nat.eq_one_of_mul_eq_one_right hcon)
    have hopt : opt_mul_out a b out = runSelectedPath a b out := by
      unfold opt_mul_out
      rw [if_neg hbn1, if_neg han1]
      unfold opt_mul_out_noswap
      rw [if_neg (fun hc => hbn1 hc.1)]
    have hrun : runSelectedPath a b out = .ok (broadcastRun b a out) := by
      unfold runSelectedPath
      rw [hsel]
    obtain ⟨hsz, hrows⟩ := broadcastRun_rows a out hsb
    refine ⟨hopt.trans hrun, hsz, ?_⟩
    intro i j hi hj
    rw [hsb] at hi hj ⊢
    exact hrows i j (by simpa using hi) (by simpa using hj)

/-- Concrete instance of the row-broadcast path: `[[1,2],[3,4]]` (shape 2x2)
times `[10,20]` (shape 2) yields `[[10,40],[30,80]]`. -/
theorem opt_mul_out_broadcast_rows_correct_witness :
    opt_mul_out ⟨[2, 2], .Int, [1, 2, 3, 4]⟩ ⟨[2], .Int, [10, 20]⟩
      ⟨[4], .Int, [0, 0, 0, 0]⟩ = .ok ⟨[2, 2], .Int, [10, 40, 30, 80]⟩ :=
  (((opt_mul_out_broadcast_rows_correct ⟨[2, 2], .Int, [1, 2, 3, 4]⟩
      ⟨[2], .Int, [10, 20]⟩ ⟨[4], .Int, [0, 0, 0, 0]⟩).1 (by decide)).1).trans rfl

/-- C6: for an int32 tensor times a float32 tensor with float32 output (any
broadcast-compatible shapes), every output element is the product, computed
in the promoted common type float32, of the two operand elements cast to
float32. -/
theorem opt_mul_out_int_float_promotes (a b out : Tensor)
    (hta : a.dtype = .Int) (htb : b.dtype = .Float) (hto : out.dtype = .Float)
    (tgt : List Nat) (htgt : broadcastShapes a.sizes b.sizes = some tgt) :
    opt_mul_out a b out = .ok { out with
      sizes := tgt
      data := (List.range tgt.prod).map (fun k =>
        mulVal .Float
          (castVal .Float (a.data.getD (broadcastSrcIdx a.sizes tgt k) 0))
          (castVal .Float (b.data.getD (broadcastSrcIdx b.sizes tgt k) 0))) } := by
  have hselAB : select_optimized_path a b out = .kNone := by
    apply select_kNone_of_type_mismatch
    apply Or.inl
    rw [hta, htb]
    decide
  have hselBA : select_optimized_path b a out = .kNone := by
    apply select_kNone_of_type_mismatch
    apply Or.inl
    rw [hta, htb]
    decide
  have hgenAB : generalPath a b out = .ok { out with
      sizes := tgt
      data := (List.range tgt.prod).map (fun k =>
        mulVal .Float
          (castVal .Float (a.data.getD (broadcastSrcIdx a.sizes tgt k) 0))
          (castVal .Float (b.data.getD (broadcastSrcIdx b.sizes tgt k) 0))) } := by
    unfold generalPath
    dsimp only
    rw [hta, htb, hto]
    rw [if_pos (show canCast (promoteTypes .Int .Float true) .Float = true from rfl)]
    rw [htgt]
    rfl
  have htgtBA : broadcastShapes b.sizes a.sizes = some tgt := by
    rw [broadcastShapes_comm]
    exact htgt
  have hgenBA : generalPath b a out = .ok { out with
      sizes := tgt
      data := (List.range tgt.prod).map (fun k =>
        mulVal .Float
          (castVal .Float (a.data.getD (broadcastSrcIdx a.sizes tgt k) 0))
          (castVal .Float (b.data.getD (broadcastSrcIdx b.sizes tgt k) 0))) } := by
    unfold generalPath
    dsimp only
    rw [hta, htb, hto]
    rw [if_pos (show canCast (promoteTypes .Float .Int true) .Float = true from rfl)]
    rw [htgtBA]
    dsimp only
    have hdata : (List.range tgt.prod).map (fun k =>
        castVal ScalarType.Float (mulVal (promoteTypes .Float .Int true)
          (castVal (promoteTypes .Float .Int true)
            (b.data.getD (broadcastSrcIdx b.sizes tgt k) 0))
          (castVal (promoteTypes .Float .Int true)
            (a.data.getD (broadcastSrcIdx a.sizes tgt k) 0)))) =
        (List.range tgt.prod).map (fun k =>
        mulVal .Float
          (castVal .Float (a.data.getD (broadcastSrcIdx a.sizes tgt k) 0))
          (castVal .Float (b.data.getD (broadcastSrcIdx b.sizes tgt k) 0))) :=
      map_range_congr (fun k _ => mulVal_comm .Float _ _)
    rw [hdata]
  have hscAB : ¬(b.numel = 1 ∧ a.dtype = b.dtype ∧ a.dtype = out.dtype ∧
      a.dtype ≠ .Half) := by
    rintro ⟨-, h1, -, -⟩
    rw [hta, htb] at h1
    cases h1
  have hscBA : ¬(a.numel = 1 ∧ b.dtype = a.dtype ∧ b.dtype = out.dtype ∧
      b.dtype ≠ .Half) := by
    rintro ⟨-, h1, -, -⟩
    rw [hta, htb] at h1
    cases h1
  have hnsAB : opt_mul_out_noswap a b out = .ok { out with
      sizes := tgt
      data := (List.range tgt.prod).map (fun k =>
        mulVal .Float
          (castVal .Float (a.data.getD (broadcastSrcIdx a.sizes tgt k) 0))
          (castVal .Float (b.data.getD (broadcastSrcIdx b.sizes tgt k) 0))) } := by
    unfold opt_mul_out_noswap
    rw [if_neg hscAB]
    unfold runSelectedPath
    rw [hselAB]
    exact hgenAB
  have hnsBA : opt_mul_out_noswap b a out = .ok { out with
      sizes := tgt
      data := (List.range tgt.prod).map (fun k =>
        mulVal .Float
          (castVal .Float (a.data.getD (broadcastSrcIdx a.sizes tgt k) 0))
          (castVal .Float (b.data.getD (broadcastSrcIdx b.sizes tgt k) 0))) } := by
    unfold opt_mul_out_noswap
    rw [if_neg hscBA]
    unfold runSelectedPath
    rw [hselBA]
    exact hgenBA
  unfold opt_mul_out
  by_cases hb1 : b.numel = 1
  · rw [if_pos hb1]
    exact hnsAB
  · rw [if_neg hb1]
    by_cases ha1 : a.numel = 1
    · rw [if_pos ha1]
      exact hnsBA
    · rw [if_neg ha1]
      exact hnsAB

/-- Concrete instance of type promotion: `[2,3] : int32` times
`[4,5] : float32` into a float32 output gives `[8,15]`. -/
theorem opt_mul_out_int_float_promotes_witness :
    opt_mul_out ⟨[2], .Int, [2, 3]⟩ ⟨[2], .Float, [4, 5]⟩ ⟨[2], .Float, [0, 0]⟩
      = .ok ⟨[2], .Float, [8, 15]⟩ :=
  (opt_mul_out_int_float_promotes ⟨[2], .Int, [2, 3]⟩ ⟨[2], .Float, [4, 5]⟩
    ⟨[2], .Float, [0, 0]⟩ rfl rfl rfl [2] rfl).trans rfl

theorem generalPath_same_shape {a b out : Tensor} (ha : a.wf) (hb : b.wf)
    (hs : a.sizes = b.sizes) (ht : a.dtype = b.dtype)
    (hT2 : a.dtype = out.dtype) (hT3 : a.dtype ≠ .Half) :
    generalPath a b out = .ok { out with
      sizes := a.sizes
      data := (List.range a.sizes.prod).map (fun i =>
        mulVal out.dtype (a.data.getD i 0) (b.data.getD i 0)) } := by
  unfold generalPath
  dsimp only
  have hcommon : promoteTypes a.dtype b.dtype true = a.dtype := by
    rw [← ht]
    exact promoteTypes_self hT3 true
  rw [hcommon]
  have hcc : canCast a.dtype out.dtype = true := by
    rw [← hT2]
    exact canCast_self a.dtype
  rw [if_pos hcc]
  have htgt : broadcastShapes a.sizes b.sizes = some a.sizes := by
    rw [← hs]
    exact broadcastShapes_self a.sizes
  rw [htgt]
  dsimp only
  have hdata : (List.range a.sizes.prod).map (fun k =>
      castVal out.dtype (mulVal a.dtype
        (castVal a.dtype (a.data.getD (broadcastSrcIdx a.sizes a.sizes k) 0))
        (castVal a.dtype (b.data.getD (broadcastSrcIdx b.sizes a.sizes k) 0)))) =
      (List.range a.sizes.prod).map (fun i =>
        mulVal out.dtype (a.data.getD i 0) (b.data.getD i 0)) := by
    apply map_range_congr
    intro k hk
    have hka : broadcastSrcIdx a.sizes a.sizes k = k := broadcastSrcIdx_self hk
    have hkb : broadcastSrcIdx b.sizes a.sizes k = k := by
      rw [← hs]
      exact broadcastSrcIdx_self hk
    rw [hka, hkb]
    have hak : castVal a.dtype (a.data.getD k 0) = a.data.getD k 0 :=
      toDomain_id (wf_getD_inDomain ha (show k < a.numel from hk))
    have hbk : castVal a.dtype (b.data.getD k 0) = b.data.getD k 0 := by
      rw [ht]
      refine toDomain_id (wf_getD_inDomain hb ?_)
      show k < b.sizes.prod
      rw [← hs]
      exact hk
    rw [hak, hbk, hT2, castVal_mulVal]
  rw [hdata]

/-- C1: for tensors of identical shapes and identical element types (and
any output tensor), `opt_mul_out` returns exactly what the fully general
casting/broadcasting path returns, no matter which fast path fires (the
single-element shortcut, the flattened 1-D loop, or none). -/
theorem opt_mul_out_fast_paths_match_general_path (a b out : Tensor)
    (ha : a.wf) (hb : b.wf) (hs : a.sizes = b.sizes) (ht : a.dtype = b.dtype) :
    opt_mul_out a b out = generalPath a b out := by
  have hnum : a.numel = b.numel := by
    unfold Tensor.numel
    rw [hs]
  by_cases hT : a.dtype = out.dtype ∧ a.dtype ≠ .Half
  · by_cases hb1 : b.numel = 1
    · have ha1 : a.sizes.prod = 1 := by
        show a.numel = 1
        rw [hnum]
        exact hb1
      unfold opt_mul_out
      rw [if_pos hb1]
      unfold opt_mul_out_noswap
      rw [if_pos ⟨hb1, ht, hT.1, hT.2⟩]
      rw [generalPath_same_shape ha hb hs ht hT.1 hT.2]
      have hdata : (List.range a.sizes.prod).map (fun i =>
          mulVal a.dtype (a.data.getD i 0)
            (castVal a.dtype (b.data.getD 0 0))) =
          (List.range a.sizes.prod).map (fun i =>
            mulVal out.dtype (a.data.getD i 0) (b.data.getD i 0)) := by
        apply map_range_congr
        intro k hk
        have hk0 : k = 0 := by
          rw [ha1] at hk
          omega
        subst hk0
        have hbd : castVal a.dtype (b.data.getD 0 0) = b.data.getD 0 0 := by
          rw [ht]
          refine toDomain_id (wf_getD_inDomain hb ?_)
          rw [hb1]
          omega
        rw [hbd, hT.1]
      rw [hdata]
    · have ha1 : a.numel ≠ 1 := by
        rw [hnum]
        exact hb1
      have hsel : select_optimized_path a b out = .kTreatAs1d :=
        (select_treat_iff a b out).mpr ⟨ht, hT.1, hT.2, Or.inl hs⟩
      unfold opt_mul_out
      rw [if_neg hb1, if_neg ha1]
      unfold opt_mul_out_noswap
      rw [if_neg (fun hc => hb1 hc.1)]
      unfold runSelectedPath
      rw [hsel]
      rw [generalPath_same_shape ha hb hs ht hT.1 hT.2]
  · have hguard : a.dtype ≠ b.dtype ∨ a.dtype ≠ out.dtype ∨ a.dtype = .Half := by
      rcases not_and_or.mp hT with h | h
      · exact Or.inr (Or.inl h)
      · exact Or.inr (Or.inr (not_not.mp h))
    have hsel : select_optimized_path a b out = .kNone :=
      select_kNone_of_type_mismatch hguard
    have hsc : ¬(b.numel = 1 ∧ a.dtype = b.dtype ∧ a.dtype = out.dtype ∧
        a.dtype ≠ .Half) := by
      rintro ⟨-, -, h2, h3⟩
      exact hT ⟨h2, h3⟩
    have hns : opt_mul_out_noswap a b out = generalPath a b out := by
      unfold opt_mul_out_noswap
      rw [if_neg hsc]
      unfold runSelectedPath
      rw [hsel]
    unfold opt_mul_out
    by_cases hb1 : b.numel = 1
    · rw [if_pos hb1]
      exact hns
    · have ha1 : a.numel ≠ 1 := by
        rw [hnum]
        exact hb1
      rw [if_neg hb1, if_neg ha1]
      exact hns

/-- Concrete instance of fast-path/general-path agreement for two
same-shape int32 tensors. -/
theorem opt_mul_out_fast_paths_match_general_path_witness :
    opt_mul_out ⟨[2], .Int, [2, 3]⟩ ⟨[2], .Int, [4, 5]⟩ ⟨[2], .Int, [0, 0]⟩
      = generalPath ⟨[2], .Int, [2, 3]⟩ ⟨[2], .Int, [4, 5]⟩ ⟨[2], .Int, [0, 0]⟩ :=
  opt_mul_out_fast_paths_match_general_path ⟨[2], .Int, [2, 3]⟩
    ⟨[2], .Int, [4, 5]⟩ ⟨[2], .Int, [0, 0]⟩ (by decide) (by decide) rfl rfl

theorem generalPath_comm (a b out : Tensor) :
    generalPath a b out = generalPath b a out := by
  unfold generalPath
  dsimp only
  rw [promoteTypes_comm b.dtype a.dtype true]
  rw [broadcastShapes_comm b.sizes a.sizes]
  by_cases hcc : canCast (promoteTypes a.dtype b.dtype true) out.dtype = true
  · rw [if_pos hcc, if_pos hcc]
    cases htgt : broadcastShapes a.sizes b.sizes with
    | none => rfl
    | some tgt =>
      dsimp only
      have hdata : (List.range tgt.prod).map (fun k =>
          castVal out.dtype (mulVal (promoteTypes a.dtype b.dtype true)
            (castVal (promoteTypes a.dtype b.dtype true)
              (a.data.getD (broadcastSrcIdx a.sizes tgt k) 0))
            (castVal (promoteTypes a.dtype b.dtype true)
              (b.data.getD (broadcastSrcIdx b.sizes tgt k) 0)))) =
          (List.range tgt.prod).map (fun k =>
          castVal out.dtype (mulVal (promoteTypes a.dtype b.dtype true)
            (castVal (promoteTypes a.dtype b.dtype true)
              (b.data.getD (broadcastSrcIdx b.sizes tgt k) 0))
            (castVal (promoteTypes a.dtype b.dtype true)
              (a.data.getD (broadcastSrcIdx a.sizes tgt k) 0)))) :=
        map_range_congr (fun k _ =>
          congrArg (castVal out.dtype) (mulVal_comm _ _ _))
      rw [hdata]
  · rw [if_neg hcc, if_neg hcc]

theorem flat_cond_symm {a b out : Tensor}
    (h : a.sizes = b.sizes ∨ (a.numel = b.numel ∧
      (a.numel = out.numel ∨
        sizes_match_ignoring_leading_1s a.sizes b.sizes = true))) :
    b.sizes = a.sizes ∨ (b.numel = a.numel ∧
      (b.numel = out.numel ∨
        sizes_match_ignoring_leading_1s b.sizes a.sizes = true)) := by
  rcases h with h | ⟨h1, h2⟩
  · exact Or.inl h.symm
  · refine Or.inr ⟨h1.symm, ?_⟩
    rcases h2 with h | h
    · exact Or.inl (h1 ▸ h)
    · exact Or.inr ((sizes_match_iff _ _).mpr ((sizes_match_iff _ _).mp h).symm)

theorem type_guard_symm {a b out : Tensor}
    (hg : a.dtype = b.dtype ∧ a.dtype = out.dtype ∧ a.dtype ≠ .Half) :
    b.dtype = a.dtype ∧ b.dtype = out.dtype ∧ b.dtype ≠ .Half :=
  ⟨hg.1.symm, hg.1.symm.trans hg.2.1, fun hh => hg.2.2 (hg.1.trans hh)⟩

theorem type_guard_neg_of {a b out : Tensor}
    (hg : a.dtype = b.dtype ∧ a.dtype = out.dtype ∧ a.dtype ≠ .Half) :
    ¬(a.dtype ≠ b.dtype ∨ a.dtype ≠ out.dtype ∨ a.dtype = .Half) := by
  rintro (h | h | h)
  · exact h hg.1
  · exact h hg.2.1
  · exact hg.2.2 h

theorem type_mismatch_symm {a b out : Tensor}
    (h : ¬(a.dtype = b.dtype ∧ a.dtype = out.dtype ∧ a.dtype ≠ .Half)) :
    b.dtype ≠ a.dtype ∨ b.dtype ≠ out.dtype ∨ b.dtype = .Half := by
  by_cases hab : a.dtype = b.dtype
  · rcases not_and_or.mp h with h2 | h2
    · exact absurd hab h2
    · rcases not_and_or.mp h2 with h3 | h3
      · exact Or.inr (Or.inl (fun hh => h3 (hab.trans hh)))
      · exact Or.inr (Or.inr (hab.symm.trans (not_not.mp h3)))
  · exact Or.inl (fun hh => hab hh.symm)

theorem type_mismatch_of_neg {a b out : Tensor}
    (h : ¬(a.dtype = b.dtype ∧ a.dtype = out.dtype ∧ a.dtype ≠ .Half)) :
    a.dtype ≠ b.dtype ∨ a.dtype ≠ out.dtype ∨ a.dtype = .Half := by
  rcases not_and_or.mp h with h2 | h2
  · exact Or.inl h2
  · rcases not_and_or.mp h2 with h3 | h3
    · exact Or.inr (Or.inl h3)
    · exact Or.inr (Or.inr (not_not.mp h3))

theorem runSelectedPath_data_comm (a b out : Tensor) :
    Except.map Tensor.data (runSelectedPath a b out)
      = Except.map Tensor.data (runSelectedPath b a out) := by
  by_cases hg : a.dtype = b.dtype ∧ a.dtype = out.dtype ∧ a.dtype ≠ .Half
  · have hgBA := type_guard_symm hg
    by_cases hflat : a.sizes = b.sizes ∨ (a.numel = b.numel ∧
        (a.numel = out.numel ∨
          sizes_match_ignoring_leading_1s a.sizes b.sizes = true))
    · have hselAB : select_optimized_path a b out = .kTreatAs1d := by
        unfold select_optimized_path
        rw [if_neg (type_guard_neg_of hg), if_pos hflat]
      have hselBA : select_optimized_path b a out = .kTreatAs1d := by
        unfold select_optimized_path
        rw [if_neg (type_guard_neg_of hgBA), if_pos (flat_cond_symm hflat)]
      have hprod : b.sizes.prod = a.sizes.prod := by
        rcases hflat with h | ⟨h1, -⟩
        · rw [h]
        · exact h1.symm
      unfold runSelectedPath
      rw [hselAB, hselBA]
      dsimp only [Except.map]
      rw [hprod]
      exact congrArg Except.ok (map_range_congr (fun k _ =>
        mulVal_comm out.dtype (a.data.getD k 0) (b.data.getD k 0)))
    · have hflatBA : ¬(b.sizes = a.sizes ∨ (b.numel = a.numel ∧
          (b.numel = out.numel ∨
            sizes_match_ignoring_leading_1s b.sizes a.sizes = true))) :=
        fun hba => hflat (flat_cond_symm hba)
      by_cases hP1 : (stripLeading1s a.sizes).length = 2 ∧
          (stripLeading1s b.sizes).length = 1 ∧
          (stripLeading1s a.sizes).getD 1 0 = (stripLeading1s b.sizes).getD 0 0
      · have hselAB : select_optimized_path a b out = .kBroadcast2dBy1d := by
          unfold select_optimized_path
          rw [if_neg (type_guard_neg_of hg), if_neg hflat]
          unfold select_broadcast_2d_by_1d_optimized_path
          dsimp only
          rw [if_pos hP1]
        have hselBA : select_optimized_path b a out =
            .kBroadcast2dBy1dReverseArguments := by
          unfold select_optimized_path
          rw [if_neg (type_guard_neg_of hgBA), if_neg hflatBA]
          unfold select_broadcast_2d_by_1d_optimized_path
          dsimp only
          rw [if_neg (fun hc => absurd (hP1.1.symm.trans hc.2.1) (by decide)),
            if_pos ⟨hP1.2.1, hP1.1, hP1.2.2⟩]
        unfold runSelectedPath
        rw [hselAB, hselBA]
      · by_cases hP2 : (stripLeading1s a.sizes).length = 1 ∧
            (stripLeading1s b.sizes).length = 2 ∧
            (stripLeading1s b.sizes).getD 1 0 = (stripLeading1s a.sizes).getD 0 0
        · have hselAB : select_optimized_path a b out =
              .kBroadcast2dBy1dReverseArguments := by
            unfold select_optimized_path
            rw [if_neg (type_guard_neg_of hg), if_neg hflat]
            unfold select_broadcast_2d_by_1d_optimized_path
            dsimp only
            rw [if_neg (fun hc => absurd (hP2.1.symm.trans hc.1) (by decide)),
              if_pos hP2]
          have hselBA : select_optimized_path b a out = .kBroadcast2dBy1d := by
            unfold select_optimized_path
            rw [if_neg (type_guard_neg_of hgBA), if_neg hflatBA]
            unfold select_broadcast_2d_by_1d_optimized_path
            dsimp only
            rw [if_pos ⟨hP2.2.1, hP2.1, hP2.2.2⟩]
          unfold runSelectedPath
          rw [hselAB, hselBA]
        · have hselAB : select_optimized_path a b out = .kNone := by
            unfold select_optimized_path
            rw [if_neg (type_guard_neg_of hg), if_neg hflat]
            unfold select_broadcast_2d_by_1d_optimized_path
            dsimp only
            rw [if_neg hP1, if_neg hP2]
          have hselBA : select_optimized_path b a out = .kNone := by
            unfold select_optimized_path
            rw [if_neg (type_guard_neg_of hgBA), if_neg hflatBA]
            unfold select_broadcast_2d_by_1d_optimized_path
            dsimp only
            rw [if_neg (fun hc => hP2 ⟨hc.2.1, hc.1, hc.2.2⟩),
              if_neg (fun hc => hP1 ⟨hc.2.1, hc.1, hc.2.2⟩)]
          unfold runSelectedPath
          rw [hselAB, hselBA]
          exact congrArg (Except.map Tensor.data) (generalPath_comm a b out)
  · have hselAB : select_optimized_path a b out = .kNone :=
      select_kNone_of_type_mismatch (type_mismatch_of_neg hg)
    have hselBA : select_optimized_path b a out = .kNone :=
      select_kNone_of_type_mismatch (type_mismatch_symm hg)
    unfold runSelectedPath
    rw [hselAB, hselBA]
    exact congrArg (Except.map Tensor.data) (generalPath_comm a b out)

/-- C8: for tensors whose shapes are broadcast-compatible (hence
compatible in both argument orders, broadcasting being symmetric),
`multiply(A,B)` and `multiply(B,A)` produce the same flat output values
(the chosen output shape may differ in orientation, so the comparison is
on the flattened element buffers). -/
theorem opt_mul_out_commutative (a b out : Tensor) (ha : a.wf) (hb : b.wf)
    (_hcompat : (broadcastShapes a.sizes b.sizes).isSome) :
    Except.map Tensor.data (opt_mul_out a b out)
      = Except.map Tensor.data (opt_mul_out b a out) := by
  unfold opt_mul_out
  by_cases hb1 : b.numel = 1
  · by_cases ha1 : a.numel = 1
    · rw [if_pos hb1, if_pos ha1]
      unfold opt_mul_out_noswap
      by_cases hg : a.dtype = b.dtype ∧ a.dtype = out.dtype ∧ a.dtype ≠ .Half
      · have hgBA := type_guard_symm hg
        rw [if_pos ⟨hb1, hg.1, hg.2.1, hg.2.2⟩,
          if_pos ⟨ha1, hgBA.1, hgBA.2.1, hgBA.2.2⟩]
        dsimp only [Except.map]
        have hap : a.sizes.prod = 1 := ha1
        have hbp : b.sizes.prod = 1 := hb1
        rw [hap, hbp]
        have hr1 : (List.range 1) = [0] := by simp [List.range_succ]
        rw [hr1]
        simp only [List.map_cons, List.map_nil]
        have hbd : castVal a.dtype (b.data.getD 0 0) = b.data.getD 0 0 := by
          rw [hg.1]
          refine toDomain_id (wf_getD_inDomain hb ?_)
          rw [hb1]
          omega
        have had : castVal b.dtype (a.data.getD 0 0) = a.data.getD 0 0 := by
          rw [← hg.1]
          refine toDomain_id (wf_getD_inDomain ha ?_)
          rw [ha1]
          omega
        rw [hbd, had, ← hg.1, mulVal_comm]
      · rw [if_neg (fun hc => hg ⟨hc.2.1, hc.2.2.1, hc.2.2.2⟩),
          if_neg (fun hc => hg ⟨hc.2.1.symm, hc.2.1.symm.trans hc.2.2.1,
            fun hh => hc.2.2.2 (hc.2.1.trans hh)⟩)]
        exact runSelectedPath_data_comm a b out
    · simp only [if_pos hb1, if_neg ha1]
  · by_cases ha1 : a.numel = 1
    · simp only [if_neg hb1, if_pos ha1]
    · simp only [if_neg hb1, if_neg ha1]
      unfold opt_mul_out_noswap
      rw [if_neg (fun hc => hb1 hc.1), if_neg (fun hc => ha1 hc.1)]
      exact runSelectedPath_data_comm a b out

/-- Concrete instance of commutativity: `[1,1,6]`-shaped times `[6]`-shaped
int32 tensors give the same values in both argument orders. -/
theorem opt_mul_out_commutative_witness :
    Except.map Tensor.data (opt_mul_out ⟨[1, 1, 6], .Int, [1, 2, 3, 4, 5, 6]⟩
      ⟨[6], .Int, [7, 8, 9, 10, 11, 12]⟩ ⟨[6], .Int, [0, 0, 0, 0, 0, 0]⟩)
      = Except.map Tensor.data (opt_mul_out ⟨[6], .Int, [7, 8, 9, 10, 11, 12]⟩
        ⟨[1, 1, 6], .Int, [1, 2, 3, 4, 5, 6]⟩ ⟨[6], .Int, [0, 0, 0, 0, 0, 0]⟩) :=
  opt_mul_out_commutative ⟨[1, 1, 6], .Int, [1, 2, 3, 4, 5, 6]⟩
    ⟨[6], .Int, [7, 8, 9, 10, 11, 12]⟩ ⟨[6], .Int, [0, 0, 0, 0, 0, 0]⟩
    (by decide) (by decide) (by decide)
